import Mathlib

unseal Rat.sub Rat.add Rat.mul Rat.inv

/-!
Verification of the Gibbs-Duhem integration evaluation oracle (gdi.py).

The development is a shallow embedding of `make_dpdt`, `_group_slurm_jobs`
and `GibbsDuhemFunc` from gdi.py.  Numeric values (temperatures, pressures,
volume/enthalpy differences) are embedded as rationals; the remote execution
transport (SSH session, Slurm jobs, `ti._compute_thermo`) is external to the
source file and is abstracted as an environment of terminal job statuses and
simulation results.  Filesystem effects are made explicit: the persisted
cache file `database/dpdt.out` is an optional list of records (absent file
vs. present file), and task-directory creation and job submission are
recorded in the result of each call.
-/

namespace Gdi

/-- One line of the persisted cache file `database/dpdt.out`:
temperature, pressure, volume difference, enthalpy difference. -/
structure Record where
  temp : ℚ
  pres : ℚ
  dv : ℚ
  dh : ℚ
deriving DecidableEq, Repr

/-- Absolute tolerance on the temperature used by the cache lookup
(`np.linalg.norm(temp - data[ii][0]) < 1e-4` in `make_dpdt`). -/
def tempTol : ℚ := 1 / 10000

/-- Absolute tolerance on the pressure used by the cache lookup
(`np.linalg.norm(pres - data[ii][1]) < 1e-2` in `make_dpdt`). -/
def presTol : ℚ := 1 / 100

/-- The record-matching test of the lookup loop in `make_dpdt`
(lines 149-157 of gdi.py): both coordinates within tolerance. -/
def recMatch (temp pres : ℚ) (r : Record) : Bool :=
  decide (|temp - r.temp| < tempTol) && decide (|pres - r.pres| < presTol)

/-- The cache lookup of `make_dpdt`: when the database file is absent there
is no record to match; otherwise the loop returns the first matching record
(the loop breaks at the first hit). -/
def lookupRec (temp pres : ℚ) : Option (List Record) → Option Record
  | none => none
  | some data => data.find? (recMatch temp pres)

/-- The record counter of `make_dpdt`: 0 when the database file is absent,
otherwise the number of rows of the loaded file (`data.shape[0]`). -/
def storeCount : Option (List Record) → ℕ
  | none => 0
  | some data => data.length

/-- The in-memory record list: empty when the file is absent. -/
def recsOf : Option (List Record) → List Record
  | none => []
  | some data => data

/-- Terminal status of a remote job, as observed by the polling loop of
`_group_slurm_jobs`.  `JobStatus.finished` leads to download and cleanup,
`JobStatus.terminated` is fatal. -/
inductive TermStatus where
  | finished
  | terminated
deriving DecidableEq, Repr

/-- Errors raised by the embedded code: the fatal `RuntimeError` of
`_group_slurm_jobs` carrying the remote job root, the
`RuntimeError("invalid inte_dir ...")` of `make_dpdt`, and the failure of
`assert(min_idx >= 0)`. -/
inductive GdiError where
  | terminatedJob (jobRoot : String)
  | invalidInteDir (dir : String)
  | assertFail
deriving DecidableEq, Repr

deriving instance DecidableEq for Except

/-- Environment abstracting everything outside gdi.py: the terminal status
eventually observed for the remote job of each chunk, the remote job root
reported by `rjob.get_job_root()`, and the (volume, enthalpy) equilibrium
averages that `ti._compute_thermo` extracts from the downloaded log of a
phase (0 or 1) simulated at a given (temperature, pressure). -/
structure SimEnv where
  outcome : ℕ → TermStatus
  jobRoot : ℕ → String
  thermo : ℚ → ℚ → ℕ → ℚ × ℚ

/-- The chunk partition of `_group_slurm_jobs`:
`[tasks[i:i+group_size] for i in range(0, len(tasks), group_size)]`.
The fuel argument bounds the number of iterations; each iteration consumes
at least one task, so fuel = number of tasks suffices.  (Python would raise
for group_size = 0 inside `range`; every call in the source uses 1.) -/
def chunkListAux : ℕ → List String → ℕ → List (List String)
  | 0, _, _ => []
  | _, [], _ => []
  | fuel + 1, t :: ts, g =>
      (t :: ts.take (g - 1)) :: chunkListAux fuel (ts.drop (g - 1)) g

/-- Chunking entry point, with fuel instantiated to the task count. -/
def chunkList (tasks : List String) (group_size : ℕ) : List (List String) :=
  chunkListAux tasks.length tasks group_size

/-- The first chunk index whose job is observed `terminated` by the polling
loop of `_group_slurm_jobs` (all statuses being terminal, the scan visits
the chunks in index order). -/
def firstTerminated (env : SimEnv) (njobs : ℕ) : Option ℕ :=
  (List.range njobs).find? (fun i => decide (env.outcome i = TermStatus.terminated))

/-- Initial value of `min_val` in the nearest-record scan of `make_dpdt`
(`min_val = 1e10`). -/
def minValInit : ℚ := 10 ^ 10

/-- The scanning loop of the nearest-record search: starting from
`min_idx = -1`, `min_val = 1e10`, replace the current minimum only on a
strictly smaller distance. -/
def scanMinAux : List ℚ → ℕ → Int × ℚ → Int × ℚ
  | [], _, acc => acc
  | d :: ds, ii, acc =>
      if d < acc.2 then scanMinAux ds (ii + 1) ((ii : Int), d)
      else scanMinAux ds (ii + 1) acc

/-- The full nearest scan over a distance list. -/
def scanMin (ds : List ℚ) : Int × ℚ := scanMinAux ds 0 (-1, minValInit)

/-- The distance used by the nearest-record search of `make_dpdt`:
`np.abs(data[ii][0] - temp)` along the temperature direction and
`np.abs(data[ii][1] - pres)` along the pressure direction. -/
def distAlong (inte_dir : String) (temp pres : ℚ) (r : Record) : ℚ :=
  if inte_dir = "t" then |r.temp - temp| else |r.pres - pres|

/-- The direction dispatch of the nearest-record search (lines 163-178 of
gdi.py): scan temperature distances for direction "t", pressure distances
for direction "p", and raise `RuntimeError("invalid inte_dir ...")`
otherwise. -/
def nearestSearch (inte_dir : String) (temp pres : ℚ) (data : List Record) :
    Except GdiError (Int × ℚ) :=
  if inte_dir = "t" then
    .ok (scanMin (data.map (fun r => |r.temp - temp|)))
  else if inte_dir = "p" then
    .ok (scanMin (data.map (fun r => |r.pres - pres|)))
  else
    .error (GdiError.invalidInteDir inte_dir)

/-- Zero padding used by the task.%06d directory format. -/
def zeroPad (width : ℕ) (n : ℕ) : String :=
  let s := toString n
  String.mk (List.replicate (width - s.length) '0') ++ s

/-- The task directory name task.%06d for index idx. -/
def taskName (n : ℕ) : String := "task." ++ zeroPad 6 n

/-- Warm-start configuration selection of `make_dpdt` (lines 159-184): when
the database file is absent the setup configurations `conf.0.lmp` and
`conf.1.lmp` are used; otherwise the nearest record along the integration
direction supplies `database/task.NNNNNN/0/out.lmp` and
`database/task.NNNNNN/1/out.lmp` (`assert(min_idx >= 0)` guards the case of
an empty scan). -/
def warmConfs (inte_dir : String) (temp pres : ℚ) :
    Option (List Record) → Except GdiError (String × String)
  | none => .ok ("conf.0.lmp", "conf.1.lmp")
  | some data =>
      match nearestSearch inte_dir temp pres data with
      | .error e => .error e
      | .ok (min_idx, _) =>
          if 0 ≤ min_idx then
            .ok ("database/" ++ taskName min_idx.toNat ++ "/0/out.lmp",
                 "database/" ++ taskName min_idx.toNat ++ "/1/out.lmp")
          else
            .error GdiError.assertFail

/-- Observable outcome of one `make_dpdt` call: the returned `[dv, dh]` (or
the raised error), the database file after the call, the warm-start
configurations selected, the task work path (`database/task.NNNNNN`) if a
new task was built, the per-phase task directories created on disk, and the
number of remote jobs submitted. -/
structure DpdtResult where
  result : Except GdiError (ℚ × ℚ)
  dbFile : Option (List Record)
  conf0 : String
  conf1 : String
  workPath : Option String
  tasksCreated : List String
  jobsSubmitted : ℕ
deriving Repr

/-- The dispatch-and-collect phase of `make_dpdt` (lines 186-232): build the
two phase task directories under `database/task.%06d % counter`, submit the
two tasks through `_group_slurm_jobs` with group size 1, and on success
reduce the two logs and append `(temp, pres, dv, dh)` to the database file.
A terminated job raises before anything is appended. -/
def dispatchTasks (env : SimEnv) (temp pres : ℚ) (counter : ℕ)
    (dbFile : Option (List Record)) (c0 c1 : String) : DpdtResult :=
  let work_path := "database/" ++ taskName counter
  let tasks := [work_path ++ "/0", work_path ++ "/1"]
  let chunks := chunkList ["0", "1"] 1
  match firstTerminated env chunks.length with
  | some i =>
      { result := .error (GdiError.terminatedJob (env.jobRoot i)), dbFile := dbFile,
        conf0 := c0, conf1 := c1, workPath := some work_path,
        tasksCreated := tasks, jobsSubmitted := chunks.length }
  | none =>
      let t0 := env.thermo temp pres 0
      let t1 := env.thermo temp pres 1
      let dv := t1.1 - t0.1
      let dh := t1.2 - t0.2
      { result := .ok (dv, dh),
        dbFile := some (recsOf dbFile ++ [{ temp := temp, pres := pres, dv := dv, dh := dh }]),
        conf0 := c0, conf1 := c1, workPath := some work_path,
        tasksCreated := tasks, jobsSubmitted := chunks.length }

/-- Embedding of `make_dpdt` (gdi.py lines 122-234).  First the cache
lookup; on a hit the stored `[dv, dh]` is returned with no task creation,
no submission and no append.  On a miss the warm-start configurations are
selected (raising for an invalid direction or a failed assert when the
database file exists), then the two phase tasks are dispatched. -/
def make_dpdt (env : SimEnv) (temp pres : ℚ) (inte_dir : String)
    (dbFile : Option (List Record)) : DpdtResult :=
  match lookupRec temp pres dbFile with
  | some r =>
      { result := .ok (r.dv, r.dh), dbFile := dbFile,
        conf0 := "conf.0.lmp", conf1 := "conf.1.lmp",
        workPath := none, tasksCreated := [], jobsSubmitted := 0 }
  | none =>
      match warmConfs inte_dir temp pres dbFile with
      | .error e =>
          { result := .error e, dbFile := dbFile,
            conf0 := "conf.0.lmp", conf1 := "conf.1.lmp",
            workPath := none, tasksCreated := [], jobsSubmitted := 0 }
      | .ok (c0, c1) => dispatchTasks env temp pres (storeCount dbFile) dbFile c0 c1

/-- The unit constant `pc.electron_volt / (pc.angstrom ** 3) * 1e-5`
converting eV per cubic angstrom to bar: exactly 1.602176634e6. -/
def ev2bar : ℚ := 1602176634 / 1000

/-- The oracle object built by `GibbsDuhemFunc.__init__`: the constructor
stores its arguments, opens an SSH session to the remote machine, sets up
the task directory if absent, and computes the unit constant.  It performs
no validation of `inte_dir`. -/
structure GibbsDuhemFunc where
  task_path : String
  inte_dir : String
  pref : ℚ
  sshSessionOpened : Bool
  ev2bar : ℚ
deriving DecidableEq, Repr

/-- Embedding of `GibbsDuhemFunc.__init__` (lines 238-260): every argument
is accepted; an `SSHSession` is opened unconditionally before anything else
is checked. -/
def GibbsDuhemFunc.init (task_path inte_dir : String) (pref : ℚ) : GibbsDuhemFunc :=
  { task_path := task_path, inte_dir := inte_dir, pref := pref,
    sshSessionOpened := true, ev2bar := Gdi.ev2bar }

/-- Observable outcome of one `GibbsDuhemFunc.__call__`: the slope wrapped
in `some` (Python returns a one-element list), `none` when the direction
matches neither branch and the function falls through returning `None`, or
the propagated error; plus the side effects of the inner `make_dpdt`. -/
structure CallResult where
  slope : Except GdiError (Option ℚ)
  dbFile : Option (List Record)
  workPath : Option String
  tasksCreated : List String
  jobsSubmitted : ℕ
deriving Repr

/-- Embedding of `GibbsDuhemFunc.__call__` (lines 262-274): along direction
"t" the call is `make_dpdt(x, y, ...)` and the slope is
`dh / (x * dv) * ev2bar * pref`; along "p" the call is `make_dpdt(y, x, ...)`
and the slope is `(y * dv) / dh / ev2bar * (1 / pref)`; any other direction
falls through and returns `None`.  (Division by zero raises in Python;
theorems about slope values assume nonzero denominators.) -/
def GibbsDuhemFunc.call (g : GibbsDuhemFunc) (env : SimEnv) (x y : ℚ)
    (dbFile : Option (List Record)) : CallResult :=
  if g.inte_dir = "t" then
    let r := make_dpdt env x y g.inte_dir dbFile
    { slope :=
        match r.result with
        | .error e => .error e
        | .ok (dv, dh) => .ok (some (dh / (x * dv) * g.ev2bar * g.pref)),
      dbFile := r.dbFile, workPath := r.workPath,
      tasksCreated := r.tasksCreated, jobsSubmitted := r.jobsSubmitted }
  else if g.inte_dir = "p" then
    let r := make_dpdt env y x g.inte_dir dbFile
    { slope :=
        match r.result with
        | .error e => .error e
        | .ok (dv, dh) => .ok (some ((y * dv) / dh / g.ev2bar * (1 / g.pref))),
      dbFile := r.dbFile, workPath := r.workPath,
      tasksCreated := r.tasksCreated, jobsSubmitted := r.jobsSubmitted }
  else
    { slope := .ok none, dbFile := dbFile, workPath := none,
      tasksCreated := [], jobsSubmitted := 0 }

/-- State threaded through a sequence of oracle invocations by the
integrator: the database file, the number of successful new (cache-miss)
evaluations so far, the task work paths created so far, and whether a raised
error aborted the integration. -/
structure RunState where
  dbFile : Option (List Record)
  nNew : ℕ
  taskDirs : List String
  aborted : Bool
deriving Repr

/-- Sequential invocation of the oracle on a list of evaluation points, as
performed by the ODE integrator.  An exception propagates and aborts the
run: the remaining points are not evaluated. -/
def runCalls (g : GibbsDuhemFunc) (env : SimEnv) : List (ℚ × ℚ) → RunState → RunState
  | [], s => s
  | (x, y) :: rest, s =>
      if s.aborted then s
      else
        let r := g.call env x y s.dbFile
        let dirs := s.taskDirs ++ (match r.workPath with | some wp => [wp] | none => [])
        match r.slope with
        | .error _ => { dbFile := r.dbFile, nNew := s.nNew, taskDirs := dirs, aborted := true }
        | .ok _ =>
            runCalls g env rest
              { dbFile := r.dbFile,
                nNew := s.nNew + (if r.workPath.isSome then 1 else 0),
                taskDirs := dirs, aborted := false }

/-- Two records describe distinct points under the tolerance metric: the
temperatures differ by at least the temperature tolerance or the pressures
by at least the pressure tolerance. -/
def distinctP (a b : Record) : Prop :=
  ¬(|a.temp - b.temp| < tempTol ∧ |a.pres - b.pres| < presTol)

instance : DecidableRel distinctP := fun a b =>
  inferInstanceAs (Decidable (¬(|a.temp - b.temp| < tempTol ∧ |a.pres - b.pres| < presTol)))

/-- An environment in which every remote job finishes successfully and both
phases report volume and enthalpy equal to the phase index (so that the
differences are 1). -/
def env0 : SimEnv :=
  { outcome := fun _ => TermStatus.finished,
    jobRoot := fun _ => "remote/gdi/job",
    thermo := fun _ _ phase => ((phase : ℚ), (phase : ℚ)) }

/-- An environment in which every remote job is observed terminated. -/
def envT : SimEnv :=
  { outcome := fun _ => TermStatus.terminated,
    jobRoot := fun _ => "remote/gdi/job",
    thermo := fun _ _ phase => ((phase : ℚ), (phase : ℚ)) }

/-- A store with records at temperatures 300, 350 and 400. -/
def db340 : List Record :=
  [{ temp := 300, pres := 1, dv := 1, dh := 1 },
   { temp := 350, pres := 1, dv := 1, dh := 1 },
   { temp := 400, pres := 1, dv := 1, dh := 1 }]

/-- The boolean record-matching test coincides with the tolerance
predicate of the specification. -/
theorem recMatch_iff (temp pres : ℚ) (r : Record) :
    recMatch temp pres r = true ↔
      |r.temp - temp| < tempTol ∧ |r.pres - pres| < presTol := by
  simp [recMatch, decide_eq_true_eq, abs_sub_comm]

/-- A first-match characterization of `List.find?`: the returned element is
a matching element preceded only by non-matching ones. -/
theorem find?_eq_some_first {α : Type} (p : α → Bool) (l : List α) (r : α) :
    l.find? p = some r ↔
      ∃ l₁ l₂, l = l₁ ++ r :: l₂ ∧ p r = true ∧ ∀ a ∈ l₁, p a = false := by
  induction l with
  | nil => simp
  | cons x xs ih =>
      by_cases hx : p x
      · rw [List.find?_cons_of_pos _ hx]
        constructor
        · rintro h
          injection h with h
          exact ⟨[], xs, by simp [h], by rw [← h]; exact hx, by simp⟩
        · rintro ⟨l₁, l₂, heq, hr, hall⟩
          cases l₁ with
          | nil =>
              injection heq with h1 h2
              rw [h1]
          | cons b bs =>
              injection heq with h1 h2
              have hb : p b = false := hall b (by simp)
              rw [h1, hb] at hx
              simp at hx
      · rw [List.find?_cons_of_neg _ hx, ih]
        constructor
        · rintro ⟨l₁, l₂, heq, hr, hall⟩
          refine ⟨x :: l₁, l₂, by rw [heq]; rfl, hr, ?_⟩
          intro a ha
          rcases List.mem_cons.mp ha with h | h
          · rw [h]; exact Bool.eq_false_iff.mpr hx
          · exact hall a h
        · rintro ⟨l₁, l₂, heq, hr, hall⟩
          cases l₁ with
          | nil =>
              injection heq with h1 h2
              rw [← h1] at hr
              exact absurd hr hx
          | cons b bs =>
              injection heq with h1 h2
              exact ⟨bs, l₂, h2, hr, fun a ha => hall a (by simp [ha])⟩

/-- When no element of the list compares strictly below the accumulated
minimum, the scan leaves the accumulator unchanged. -/
theorem scanMinAux_no_update (ds : List ℚ) (k : ℕ) (mi : Int) (mv : ℚ)
    (h : ∀ d ∈ ds, ¬d < mv) : scanMinAux ds k (mi, mv) = (mi, mv) := by
  induction ds generalizing k with
  | nil => rfl
  | cons d ds ih =>
      have hd : ¬d < mv := h d (by simp)
      simp only [scanMinAux, if_neg hd]
      exact ih (k + 1) (fun e he => h e (by simp [he]))

/-- The scan selects the first index attaining the minimum: if position `i`
holds a value strictly below the accumulated minimum, strictly below every
earlier value and at most every value, the scan returns index `k + i`. -/
theorem scanMinAux_first_min (ds : List ℚ) (i : ℕ) (hi : i < ds.length)
    (k : ℕ) (mi : Int) (mv : ℚ)
    (hlt : ds.get ⟨i, hi⟩ < mv)
    (hfirst : ∀ j (hj : j < ds.length), j < i → ds.get ⟨i, hi⟩ < ds.get ⟨j, hj⟩)
    (hmin : ∀ j (hj : j < ds.length), ds.get ⟨i, hi⟩ ≤ ds.get ⟨j, hj⟩) :
    scanMinAux ds k (mi, mv) = (((k + i : ℕ) : Int), ds.get ⟨i, hi⟩) := by
  induction ds generalizing i k mi mv with
  | nil => exact absurd hi (by simp)
  | cons d ds ih =>
      cases i with
      | zero =>
          have hd : d < mv := hlt
          simp only [scanMinAux, if_pos hd]
          rw [scanMinAux_no_update]
          · simp
          · intro e he
            rcases List.mem_iff_get.mp he with ⟨⟨j, hj⟩, rfl⟩
            have := hmin (j + 1) (by simpa using Nat.succ_lt_succ hj)
            simpa using this
      | succ i0 =>
          have hi0 : i0 < ds.length := by simpa using hi
          by_cases hd : d < mv
          · simp only [scanMinAux, if_pos hd]
            have h0 : ds.get ⟨i0, hi0⟩ < d := by
              simpa using hfirst 0 (by simp) (Nat.succ_pos i0)
            have := ih i0 hi0 (k + 1) ((k : Int)) d h0
              (fun j hj hji => by
                simpa using hfirst (j + 1) (by simpa using Nat.succ_lt_succ hj)
                  (Nat.succ_lt_succ hji))
              (fun j hj => by
                simpa using hmin (j + 1) (by simpa using Nat.succ_lt_succ hj))
            rw [this, show k + 1 + i0 = k + (i0 + 1) from by omega]
            simp
          · simp only [scanMinAux, if_neg hd]
            have hlt0 : ds.get ⟨i0, hi0⟩ < mv := by simpa using hlt
            have := ih i0 hi0 (k + 1) mi mv hlt0
              (fun j hj hji => by
                simpa using hfirst (j + 1) (by simpa using Nat.succ_lt_succ hj)
                  (Nat.succ_lt_succ hji))
              (fun j hj => by
                simpa using hmin (j + 1) (by simpa using Nat.succ_lt_succ hj))
            rw [this, show k + 1 + i0 = k + (i0 + 1) from by omega]
            simp

/-- Every nonempty list of rationals has a first index attaining its
minimum. -/
theorem exists_first_min (ds : List ℚ) (hne : ds ≠ []) :
    ∃ i, ∃ hi : i < ds.length,
      (∀ j (hj : j < ds.length), ds.get ⟨i, hi⟩ ≤ ds.get ⟨j, hj⟩) ∧
      (∀ j (hj : j < ds.length), j < i → ds.get ⟨i, hi⟩ < ds.get ⟨j, hj⟩) := by
  induction ds with
  | nil => exact absurd rfl hne
  | cons d ds ih =>
      cases ds with
      | nil =>
          refine ⟨0, by simp, ?_, ?_⟩
          · intro j hj
            have hj0 : j = 0 := by simpa [Nat.lt_one_iff] using hj
            subst hj0
            simp
          · intro j hj hj0
            exact absurd hj0 (by omega)
      | cons e es =>
          rcases ih (by simp) with ⟨i, hi, hmin, hfirst⟩
          by_cases hd : d ≤ (e :: es).get ⟨i, hi⟩
          · refine ⟨0, by simp, ?_, ?_⟩
            · intro j hj
              cases j with
              | zero => simp
              | succ j0 =>
                  have hj0 : j0 < (e :: es).length := by simpa using hj
                  calc (d :: e :: es).get ⟨0, by simp⟩ = d := rfl
                    _ ≤ (e :: es).get ⟨i, hi⟩ := hd
                    _ ≤ (e :: es).get ⟨j0, hj0⟩ := hmin j0 hj0
                    _ = (d :: e :: es).get ⟨j0 + 1, hj⟩ := rfl
            · intro j hj hj0
              exact absurd hj0 (by omega)
          · push_neg at hd
            refine ⟨i + 1, by simpa using Nat.succ_lt_succ hi, ?_, ?_⟩
            · intro j hj
              cases j with
              | zero => exact le_of_lt hd
              | succ j0 =>
                  have hj0 : j0 < (e :: es).length := by simpa using hj
                  exact hmin j0 hj0
            · intro j hj hji
              cases j with
              | zero => exact hd
              | succ j0 =>
                  have hj0 : j0 < (e :: es).length := by simpa using hj
                  exact hfirst j0 hj0 (by omega)

/-- Scan of a mapped list: the first index attaining the minimum of `f`
over the records is selected, provided its value is below the initial
`min_val`. -/
theorem scanMin_map_first (f : Record → ℚ) (data : List Record) (i : ℕ)
    (hi : i < data.length)
    (hmin : ∀ j (hj : j < data.length), f (data.get ⟨i, hi⟩) ≤ f (data.get ⟨j, hj⟩))
    (hfirst : ∀ j (hj : j < data.length), j < i →
      f (data.get ⟨i, hi⟩) < f (data.get ⟨j, hj⟩))
    (hbig : f (data.get ⟨i, hi⟩) < minValInit) :
    scanMin (data.map f) = ((i : Int), f (data.get ⟨i, hi⟩)) := by
  have hlen : (data.map f).length = data.length := List.length_map _ _
  have hi2 : i < (data.map f).length := by rw [hlen]; exact hi
  have hget : ∀ (j : ℕ) (hj : j < (data.map f).length),
      (data.map f).get ⟨j, hj⟩ = f (data.get ⟨j, by rwa [hlen] at hj⟩) := by
    intro j hj
    simp [List.get_eq_getElem, List.getElem_map]
  unfold scanMin
  rw [scanMinAux_first_min (data.map f) i hi2 0 (-1) minValInit
    (by rw [hget]; exact hbig)
    (fun j hj hji => by rw [hget, hget]; exact hfirst j (by rwa [hlen] at hj) hji)
    (fun j hj => by rw [hget, hget]; exact hmin j (by rwa [hlen] at hj))]
  rw [hget]
  norm_num

/-- For a valid integration direction, the nearest-record search returns
the first index attaining the minimal distance, with that distance. -/
theorem nearestSearch_first (inte_dir : String) (temp pres : ℚ) (data : List Record)
    (hdir : inte_dir = "t" ∨ inte_dir = "p")
    (i : ℕ) (hi : i < data.length)
    (hmin : ∀ j (hj : j < data.length),
      distAlong inte_dir temp pres (data.get ⟨i, hi⟩) ≤
        distAlong inte_dir temp pres (data.get ⟨j, hj⟩))
    (hfirst : ∀ j (hj : j < data.length), j < i →
      distAlong inte_dir temp pres (data.get ⟨i, hi⟩) <
        distAlong inte_dir temp pres (data.get ⟨j, hj⟩))
    (hbig : distAlong inte_dir temp pres (data.get ⟨i, hi⟩) < minValInit) :
    nearestSearch inte_dir temp pres data =
      .ok ((i : Int), distAlong inte_dir temp pres (data.get ⟨i, hi⟩)) := by
  rcases hdir with hdir | hdir
  · subst hdir
    have hf : ∀ r : Record, distAlong "t" temp pres r = |r.temp - temp| := by
      intro r; simp [distAlong]
    simp only [nearestSearch, if_pos rfl]
    rw [show (fun r : Record => |r.temp - temp|) = distAlong "t" temp pres from
      funext (fun r => (hf r).symm)]
    rw [scanMin_map_first _ _ i hi hmin hfirst hbig]
    simp
  · subst hdir
    have hf : ∀ r : Record, distAlong "p" temp pres r = |r.pres - pres| := by
      intro r; simp [distAlong]
    have hne : ("p" : String) ≠ "t" := by decide
    simp only [nearestSearch, if_neg hne, if_pos rfl]
    rw [show (fun r : Record => |r.pres - pres|) = distAlong "p" temp pres from
      funext (fun r => (hf r).symm)]
    rw [scanMin_map_first _ _ i hi hmin hfirst hbig]
    simp

/-- A cache hit short-circuits `make_dpdt`. -/
theorem make_dpdt_of_found (env : SimEnv) (temp pres : ℚ) (inte_dir : String)
    (dbFile : Option (List Record)) (r : Record)
    (h : lookupRec temp pres dbFile = some r) :
    make_dpdt env temp pres inte_dir dbFile =
      { result := .ok (r.dv, r.dh), dbFile := dbFile,
        conf0 := "conf.0.lmp", conf1 := "conf.1.lmp",
        workPath := none, tasksCreated := [], jobsSubmitted := 0 } := by
  unfold make_dpdt
  rw [h]

/-- A cache miss with a failing warm-start selection raises before any task
is created. -/
theorem make_dpdt_of_confErr (env : SimEnv) (temp pres : ℚ) (inte_dir : String)
    (dbFile : Option (List Record)) (e : GdiError)
    (h1 : lookupRec temp pres dbFile = none)
    (h2 : warmConfs inte_dir temp pres dbFile = .error e) :
    make_dpdt env temp pres inte_dir dbFile =
      { result := .error e, dbFile := dbFile,
        conf0 := "conf.0.lmp", conf1 := "conf.1.lmp",
        workPath := none, tasksCreated := [], jobsSubmitted := 0 } := by
  unfold make_dpdt
  rw [h1, h2]

/-- A cache miss with a successful warm-start selection dispatches the two
phase tasks. -/
theorem make_dpdt_of_confOk (env : SimEnv) (temp pres : ℚ) (inte_dir : String)
    (dbFile : Option (List Record)) (c0 c1 : String)
    (h1 : lookupRec temp pres dbFile = none)
    (h2 : warmConfs inte_dir temp pres dbFile = .ok (c0, c1)) :
    make_dpdt env temp pres inte_dir dbFile =
      dispatchTasks env temp pres (storeCount dbFile) dbFile c0 c1 := by
  unfold make_dpdt
  rw [h1, h2]

/-- The two phase tasks are partitioned with group size 1 into two
single-task chunks. -/
theorem chunkList_two : chunkList ["0", "1"] 1 = [["0"], ["1"]] := rfl

/-- Dispatch outcome when some chunk job is observed terminated. -/
theorem dispatchTasks_terminated (env : SimEnv) (temp pres : ℚ) (counter : ℕ)
    (dbFile : Option (List Record)) (c0 c1 : String) (i : ℕ)
    (h : firstTerminated env 2 = some i) :
    dispatchTasks env temp pres counter dbFile c0 c1 =
      { result := .error (GdiError.terminatedJob (env.jobRoot i)), dbFile := dbFile,
        conf0 := c0, conf1 := c1,
        workPath := some ("database/" ++ taskName counter),
        tasksCreated := ["database/" ++ taskName counter ++ "/0",
                         "database/" ++ taskName counter ++ "/1"],
        jobsSubmitted := 2 } := by
  have hlen : (chunkList ["0", "1"] 1).length = 2 := rfl
  simp only [dispatchTasks]
  rw [hlen, h]

/-- Dispatch outcome when every chunk job finishes: the reduced differences
are appended to the database file. -/
theorem dispatchTasks_finished (env : SimEnv) (temp pres : ℚ) (counter : ℕ)
    (dbFile : Option (List Record)) (c0 c1 : String)
    (h : firstTerminated env 2 = none) :
    dispatchTasks env temp pres counter dbFile c0 c1 =
      { result := .ok ((env.thermo temp pres 1).1 - (env.thermo temp pres 0).1,
                       (env.thermo temp pres 1).2 - (env.thermo temp pres 0).2),
        dbFile := some (recsOf dbFile ++
          [{ temp := temp, pres := pres,
             dv := (env.thermo temp pres 1).1 - (env.thermo temp pres 0).1,
             dh := (env.thermo temp pres 1).2 - (env.thermo temp pres 0).2 }]),
        conf0 := c0, conf1 := c1,
        workPath := some ("database/" ++ taskName counter),
        tasksCreated := ["database/" ++ taskName counter ++ "/0",
                         "database/" ++ taskName counter ++ "/1"],
        jobsSubmitted := 2 } := by
  have hlen : (chunkList ["0", "1"] 1).length = 2 := rfl
  simp only [dispatchTasks]
  rw [hlen, h]

/-- The counter loaded at the start of `make_dpdt` is the record count of
the database file. -/
theorem storeCount_eq (dbFile : Option (List Record)) :
    storeCount dbFile = (recsOf dbFile).length := by
  cases dbFile <;> rfl

/-- A failed lookup means no stored record is within tolerance of the
query. -/
theorem lookup_none_distinct (temp pres : ℚ) (dbFile : Option (List Record))
    (h : lookupRec temp pres dbFile = none) :
    ∀ a ∈ recsOf dbFile, ¬(|a.temp - temp| < tempTol ∧ |a.pres - pres| < presTol) := by
  cases dbFile with
  | none => simp [recsOf]
  | some data =>
      intro a ha
      have := List.find?_eq_none.mp h a ha
      rw [← recMatch_iff]
      simpa using this

/-- Case analysis of one `make_dpdt` call: either no task is built (cache
hit or pre-dispatch error), leaving the database file untouched, or the two
phase tasks of `database/task.NNNNNN` (N = current record count) are built
and two jobs submitted, and then either an error leaves the file untouched
or the call succeeds and appends exactly the queried point with the reduced
differences. -/
theorem make_dpdt_step (env : SimEnv) (temp pres : ℚ) (inte_dir : String)
    (dbFile : Option (List Record)) :
    ((make_dpdt env temp pres inte_dir dbFile).workPath = none ∧
     (make_dpdt env temp pres inte_dir dbFile).dbFile = dbFile ∧
     (make_dpdt env temp pres inte_dir dbFile).tasksCreated = [] ∧
     (make_dpdt env temp pres inte_dir dbFile).jobsSubmitted = 0) ∨
    ((make_dpdt env temp pres inte_dir dbFile).workPath =
        some ("database/" ++ taskName (recsOf dbFile).length) ∧
     (make_dpdt env temp pres inte_dir dbFile).tasksCreated =
        ["database/" ++ taskName (recsOf dbFile).length ++ "/0",
         "database/" ++ taskName (recsOf dbFile).length ++ "/1"] ∧
     (make_dpdt env temp pres inte_dir dbFile).jobsSubmitted = 2 ∧
     lookupRec temp pres dbFile = none ∧
     (((∃ e, (make_dpdt env temp pres inte_dir dbFile).result = .error e) ∧
       (make_dpdt env temp pres inte_dir dbFile).dbFile = dbFile) ∨
      (∃ dv dh, (make_dpdt env temp pres inte_dir dbFile).result = .ok (dv, dh) ∧
       (make_dpdt env temp pres inte_dir dbFile).dbFile =
         some (recsOf dbFile ++ [{ temp := temp, pres := pres, dv := dv, dh := dh }])))) := by
  cases hl : lookupRec temp pres dbFile with
  | some r =>
      left
      rw [make_dpdt_of_found env temp pres inte_dir dbFile r hl]
      exact ⟨rfl, rfl, rfl, rfl⟩
  | none =>
      cases hw : warmConfs inte_dir temp pres dbFile with
      | error e =>
          left
          rw [make_dpdt_of_confErr env temp pres inte_dir dbFile e hl hw]
          exact ⟨rfl, rfl, rfl, rfl⟩
      | ok cc =>
          right
          rw [make_dpdt_of_confOk env temp pres inte_dir dbFile cc.1 cc.2 hl (by
            rw [hw])]
          cases hf : firstTerminated env 2 with
          | some i =>
              rw [dispatchTasks_terminated env temp pres (storeCount dbFile) dbFile cc.1 cc.2 i hf,
                storeCount_eq]
              exact ⟨rfl, rfl, rfl, rfl, Or.inl ⟨⟨_, rfl⟩, rfl⟩⟩
          | none =>
              rw [dispatchTasks_finished env temp pres (storeCount dbFile) dbFile cc.1 cc.2 hf,
                storeCount_eq]
              exact ⟨rfl, rfl, rfl, rfl, Or.inr ⟨_, _, rfl, rfl⟩⟩

/-- Case analysis of one `GibbsDuhemFunc.__call__`: either no task is built
and the database file is untouched, or the call dispatched a new task under
the next task identifier, and on success it appended one record that no
stored record matched within tolerance. -/
theorem call_step (g : GibbsDuhemFunc) (env : SimEnv) (x y : ℚ)
    (dbFile : Option (List Record)) :
    ((g.call env x y dbFile).workPath = none ∧
     (g.call env x y dbFile).dbFile = dbFile) ∨
    ((g.call env x y dbFile).workPath =
        some ("database/" ++ taskName (recsOf dbFile).length) ∧
     (((∃ e, (g.call env x y dbFile).slope = .error e) ∧
       (g.call env x y dbFile).dbFile = dbFile) ∨
      (∃ v, (g.call env x y dbFile).slope = .ok v ∧
       ∃ rec, (g.call env x y dbFile).dbFile = some (recsOf dbFile ++ [rec]) ∧
         ∀ a ∈ recsOf dbFile,
           ¬(|a.temp - rec.temp| < tempTol ∧ |a.pres - rec.pres| < presTol)))) := by
  by_cases h1 : g.inte_dir = "t"
  · simp only [GibbsDuhemFunc.call, if_pos h1]
    rcases make_dpdt_step env x y g.inte_dir dbFile with
      ⟨hwp, hdb, _, _⟩ | ⟨hwp, _, _, hlook, hres⟩
    · exact Or.inl ⟨hwp, hdb⟩
    · refine Or.inr ⟨hwp, ?_⟩
      rcases hres with ⟨⟨e, he⟩, hdb⟩ | ⟨dv, dh, hok, hdb⟩
      · exact Or.inl ⟨⟨e, by rw [he]⟩, hdb⟩
      · refine Or.inr ⟨_, by rw [hok], ⟨_, hdb, ?_⟩⟩
        exact lookup_none_distinct x y dbFile hlook
  · by_cases h2 : g.inte_dir = "p"
    · simp only [GibbsDuhemFunc.call, if_neg h1, if_pos h2]
      rcases make_dpdt_step env y x g.inte_dir dbFile with
        ⟨hwp, hdb, _, _⟩ | ⟨hwp, _, _, hlook, hres⟩
      · exact Or.inl ⟨hwp, hdb⟩
      · refine Or.inr ⟨hwp, ?_⟩
        rcases hres with ⟨⟨e, he⟩, hdb⟩ | ⟨dv, dh, hok, hdb⟩
        · exact Or.inl ⟨⟨e, by rw [he]⟩, hdb⟩
        · refine Or.inr ⟨_, by rw [hok], ⟨_, hdb, ?_⟩⟩
          exact lookup_none_distinct y x dbFile hlook
    · left
      simp [GibbsDuhemFunc.call, if_neg h1, if_neg h2]

/-- Unfolding lemma for the in-memory record list of a present file. -/
@[simp] theorem recsOf_some (l : List Record) : recsOf (some l) = l := rfl

/-- Unfolding lemma for the in-memory record list of an absent file. -/
@[simp] theorem recsOf_none : recsOf none = [] := rfl

/-- Invariant of a sequential run: starting from a non-aborted state, the
count of successful new evaluations grows by some k, the stored record count
grows by exactly k, when the run does not abort the task directories created
are exactly the identifiers from the initial record count onwards, and
pairwise tolerance-distinctness of the store is preserved. -/
theorem runCalls_inv (g : GibbsDuhemFunc) (env : SimEnv) (pts : List (ℚ × ℚ))
    (s0 : RunState) (h0 : s0.aborted = false) :
    ∃ k, (runCalls g env pts s0).nNew = s0.nNew + k ∧
      (recsOf (runCalls g env pts s0).dbFile).length = (recsOf s0.dbFile).length + k ∧
      ((runCalls g env pts s0).aborted = false →
        (runCalls g env pts s0).taskDirs =
          s0.taskDirs ++ (List.range' (recsOf s0.dbFile).length k).map
            (fun j => "database/" ++ taskName j)) ∧
      (List.Pairwise distinctP (recsOf s0.dbFile) →
        List.Pairwise distinctP (recsOf (runCalls g env pts s0).dbFile)) := by
  induction pts generalizing s0 with
  | nil =>
      refine ⟨0, by simp [runCalls], by simp [runCalls], ?_, by simp [runCalls]⟩
      intro _
      simp [runCalls]
  | cons pt rest ih =>
      obtain ⟨x, y⟩ := pt
      rcases call_step g env x y s0.dbFile with
        ⟨hwp, hdb⟩ | ⟨hwp, ⟨⟨e, he⟩, hdb⟩ | ⟨v, hok, rec, hdb, hdist⟩⟩
      · cases hsl : (g.call env x y s0.dbFile).slope with
        | error e =>
            refine ⟨0, ?_, ?_, ?_, ?_⟩ <;>
              simp [runCalls, h0, hsl, hwp, hdb]
        | ok v =>
            have hrec :
                runCalls g env ((x, y) :: rest) s0 =
                  runCalls g env rest ⟨s0.dbFile, s0.nNew, s0.taskDirs, false⟩ := by
              simp [runCalls, h0, hsl, hwp, hdb]
            obtain ⟨k, hn, hl, hd, hp⟩ :=
              ih ⟨s0.dbFile, s0.nNew, s0.taskDirs, false⟩ rfl
            rw [hrec]
            exact ⟨k, hn, hl, hd, hp⟩
      · refine ⟨0, ?_, ?_, ?_, ?_⟩ <;>
          simp [runCalls, h0, he, hwp, hdb]
      · have hrec :
            runCalls g env ((x, y) :: rest) s0 =
              runCalls g env rest
                ⟨some (recsOf s0.dbFile ++ [rec]), s0.nNew + 1,
                 s0.taskDirs ++ ["database/" ++ taskName (recsOf s0.dbFile).length],
                 false⟩ := by
          simp [runCalls, h0, hok, hwp, hdb]
        obtain ⟨k, hn, hl, hd, hp⟩ :=
          ih ⟨some (recsOf s0.dbFile ++ [rec]), s0.nNew + 1,
            s0.taskDirs ++ ["database/" ++ taskName (recsOf s0.dbFile).length],
            false⟩ rfl
        simp only [recsOf_some, List.length_append, List.length_singleton] at hn hl hd hp
        rw [hrec]
        refine ⟨k + 1, by rw [hn]; omega, by rw [hl]; omega, ?_, ?_⟩
        · intro hab
          rw [hd hab, List.range'_succ]
          simp [List.append_assoc]
        · intro hpp
          refine hp ?_
          rw [List.pairwise_append]
          refine ⟨hpp, List.pairwise_singleton _ _, ?_⟩
          intro a ha b hb
          rw [List.mem_singleton] at hb
          subst hb
          exact hdist a ha

/-- First index attaining the minimum of a function over a nonempty record
list: the minimum is attained and every earlier index is strictly worse. -/
theorem exists_first_min_rec (f : Record → ℚ) (data : List Record) (hne : data ≠ []) :
    ∃ i, ∃ hi : i < data.length,
      (∀ j (hj : j < data.length), f (data.get ⟨i, hi⟩) ≤ f (data.get ⟨j, hj⟩)) ∧
      (∀ j (hj : j < data.length), j < i → f (data.get ⟨i, hi⟩) < f (data.get ⟨j, hj⟩)) := by
  have hlen : (data.map f).length = data.length := List.length_map _ _
  have hget : ∀ (j : ℕ) (hj : j < (data.map f).length),
      (data.map f).get ⟨j, hj⟩ = f (data.get ⟨j, by rwa [hlen] at hj⟩) := by
    intro j hj
    simp [List.get_eq_getElem, List.getElem_map]
  have hne2 : data.map f ≠ [] := by
    intro h
    exact hne (List.map_eq_nil_iff.mp h)
  obtain ⟨i, hi, hmin, hfirst⟩ := exists_first_min (data.map f) hne2
  refine ⟨i, by rwa [hlen] at hi, ?_, ?_⟩
  · intro j hj
    have := hmin j (by rwa [hlen])
    rwa [hget, hget] at this
  · intro j hj hji
    have := hfirst j (by rwa [hlen]) hji
    rwa [hget, hget] at this

/-- Claim C1: cache idempotence of the oracle.  For every evaluation point
whose (temperature, pressure) lies within tolerance of a record already in
the store, the `make_dpdt` call performs zero new remote dispatches — no
task directories are created, no jobs are submitted, no record is
appended — and returns the (Δvolume, Δenthalpy) of the previously stored
(first matching) record. -/
theorem cache_idempotence (env : SimEnv) (temp pres : ℚ) (inte_dir : String)
    (data : List Record)
    (hhit : ∃ r ∈ data, |r.temp - temp| < tempTol ∧ |r.pres - pres| < presTol) :
    ∃ r, lookupRec temp pres (some data) = some r ∧ r ∈ data ∧
      |r.temp - temp| < tempTol ∧ |r.pres - pres| < presTol ∧
      (make_dpdt env temp pres inte_dir (some data)).result = .ok (r.dv, r.dh) ∧
      (make_dpdt env temp pres inte_dir (some data)).dbFile = some data ∧
      (make_dpdt env temp pres inte_dir (some data)).tasksCreated = [] ∧
      (make_dpdt env temp pres inte_dir (some data)).jobsSubmitted = 0 := by
  obtain ⟨r0, hr0, hm0⟩ := hhit
  have hsome : (data.find? (recMatch temp pres)).isSome :=
    List.find?_isSome.mpr ⟨r0, hr0, (recMatch_iff temp pres r0).mpr hm0⟩
  obtain ⟨r, hr⟩ := Option.isSome_iff_exists.mp hsome
  have hlook : lookupRec temp pres (some data) = some r := hr
  have hmem : r ∈ data := List.mem_of_find?_eq_some hr
  have hmatch := (recMatch_iff temp pres r).mp (List.find?_some hr)
  rw [make_dpdt_of_found env temp pres inte_dir (some data) r hlook]
  exact ⟨r, hlook, hmem, hmatch.1, hmatch.2, rfl, rfl, rfl, rfl⟩

/-- Claim C1 witness: a concrete hit at the stored point (300, 1). -/
theorem cache_idempotence_check :
    ∃ r, lookupRec 300 1 (some [{ temp := 300, pres := 1, dv := 2, dh := 3 }]) = some r ∧
      r ∈ [{ temp := 300, pres := 1, dv := 2, dh := 3 }] ∧
      |r.temp - 300| < tempTol ∧ |r.pres - 1| < presTol ∧
      (make_dpdt env0 300 1 "t"
        (some [{ temp := 300, pres := 1, dv := 2, dh := 3 }])).result = .ok (r.dv, r.dh) ∧
      (make_dpdt env0 300 1 "t"
        (some [{ temp := 300, pres := 1, dv := 2, dh := 3 }])).dbFile =
        some [{ temp := 300, pres := 1, dv := 2, dh := 3 }] ∧
      (make_dpdt env0 300 1 "t"
        (some [{ temp := 300, pres := 1, dv := 2, dh := 3 }])).tasksCreated = [] ∧
      (make_dpdt env0 300 1 "t"
        (some [{ temp := 300, pres := 1, dv := 2, dh := 3 }])).jobsSubmitted = 0 :=
  cache_idempotence env0 300 1 "t" [{ temp := 300, pres := 1, dv := 2, dh := 3 }]
    ⟨{ temp := 300, pres := 1, dv := 2, dh := 3 }, by decide, by decide, by decide⟩

/-- Claim C2: lookup tolerance semantics.  A cache lookup hits exactly when
some stored record has both coordinates within the fixed tolerances
(temperature 1e-4, pressure 1e-2) of the query, the first such record in
insertion order is returned, and concretely a query at temperature
300 + 5e-5 hits a record at 300 while a query at 300 + 1e-3 misses. -/
theorem lookup_tolerance (data : List Record) (temp pres : ℚ) :
    ((lookupRec temp pres (some data)).isSome ↔
      ∃ r ∈ data, |r.temp - temp| < 1 / 10000 ∧ |r.pres - pres| < 1 / 100) ∧
    (∀ r, lookupRec temp pres (some data) = some r →
      ∃ l1 l2, data = l1 ++ r :: l2 ∧
        (|r.temp - temp| < 1 / 10000 ∧ |r.pres - pres| < 1 / 100) ∧
        ∀ a ∈ l1, ¬(|a.temp - temp| < 1 / 10000 ∧ |a.pres - pres| < 1 / 100)) ∧
    lookupRec (300 + 5 / 100000) 1 (some [{ temp := 300, pres := 1, dv := 2, dh := 3 }]) =
      some { temp := 300, pres := 1, dv := 2, dh := 3 } ∧
    lookupRec (300 + 1 / 1000) 1 (some [{ temp := 300, pres := 1, dv := 2, dh := 3 }]) =
      none := by
  refine ⟨?_, ?_, by decide, by decide⟩
  · show (data.find? (recMatch temp pres)).isSome ↔ _
    rw [List.find?_isSome]
    constructor
    · rintro ⟨r, hr, hm⟩
      exact ⟨r, hr, (recMatch_iff temp pres r).mp hm⟩
    · rintro ⟨r, hr, hm⟩
      exact ⟨r, hr, (recMatch_iff temp pres r).mpr hm⟩
  · intro r hr
    obtain ⟨l1, l2, heq, hp, hall⟩ :=
      (find?_eq_some_first (recMatch temp pres) data r).mp hr
    refine ⟨l1, l2, heq, (recMatch_iff temp pres r).mp hp, ?_⟩
    intro a ha
    have hfa := hall a ha
    rw [show ((|a.temp - temp| < 1 / 10000 ∧ |a.pres - pres| < 1 / 100)) =
      (recMatch temp pres a = true) from (propext (recMatch_iff temp pres a)).symm]
    simp [hfa]

/-- Claim C2 witness: the boundary instances, obtained from the theorem at
a singleton store. -/
theorem lookup_tolerance_check :
    lookupRec (300 + 5 / 100000) 1 (some [{ temp := 300, pres := 1, dv := 2, dh := 3 }]) =
      some { temp := 300, pres := 1, dv := 2, dh := 3 } ∧
    lookupRec (300 + 1 / 1000) 1 (some [{ temp := 300, pres := 1, dv := 2, dh := 3 }]) =
      none :=
  ⟨(lookup_tolerance [] 0 0).2.2.1, (lookup_tolerance [] 0 0).2.2.2⟩

/-- Computation of the first terminated chunk among the two submitted
jobs. -/
theorem firstTerminated_two (env : SimEnv) :
    (env.outcome 0 = TermStatus.terminated → firstTerminated env 2 = some 0) ∧
    (env.outcome 0 = TermStatus.finished → env.outcome 1 = TermStatus.terminated →
      firstTerminated env 2 = some 1) ∧
    (env.outcome 0 = TermStatus.finished → env.outcome 1 = TermStatus.finished →
      firstTerminated env 2 = none) := by
  have hr : List.range 2 = [0, 1] := rfl
  refine ⟨fun h0 => ?_, fun h0 h1 => ?_, fun h0 h1 => ?_⟩ <;>
    simp [firstTerminated, hr, List.find?, h0] <;>
    simp [h1]

/-- Claim C3: fatal propagation with store atomicity.  For every oracle
call that dispatched jobs, if one of the two chunk jobs is observed
terminated then the call raises the error naming that job remote root and
the database file is unchanged — no record is appended for the point. -/
theorem fatal_propagation (env : SimEnv) (temp pres : ℚ) (inte_dir : String)
    (dbFile : Option (List Record))
    (hdisp : 0 < (make_dpdt env temp pres inte_dir dbFile).jobsSubmitted)
    (hterm : ∃ i, i < 2 ∧ env.outcome i = TermStatus.terminated) :
    ∃ i, i < 2 ∧ env.outcome i = TermStatus.terminated ∧
      (make_dpdt env temp pres inte_dir dbFile).result =
        .error (GdiError.terminatedJob (env.jobRoot i)) ∧
      (make_dpdt env temp pres inte_dir dbFile).dbFile = dbFile := by
  cases hl : lookupRec temp pres dbFile with
  | some r =>
      rw [make_dpdt_of_found env temp pres inte_dir dbFile r hl] at hdisp
      simp at hdisp
  | none =>
      cases hw : warmConfs inte_dir temp pres dbFile with
      | error e =>
          rw [make_dpdt_of_confErr env temp pres inte_dir dbFile e hl hw] at hdisp
          simp at hdisp
      | ok cc =>
          have hmk := make_dpdt_of_confOk env temp pres inte_dir dbFile cc.1 cc.2 hl
            (by rw [hw])
          have hft : ∃ j, j < 2 ∧ firstTerminated env 2 = some j ∧
              env.outcome j = TermStatus.terminated := by
            cases h0 : env.outcome 0 with
            | terminated =>
                exact ⟨0, by omega, (firstTerminated_two env).1 h0, h0⟩
            | finished =>
                cases h1 : env.outcome 1 with
                | terminated =>
                    exact ⟨1, by omega, (firstTerminated_two env).2.1 h0 h1, h1⟩
                | finished =>
                    obtain ⟨i, hi2, hiterm⟩ := hterm
                    interval_cases i
                    · rw [h0] at hiterm; cases hiterm
                    · rw [h1] at hiterm; cases hiterm
          obtain ⟨j, hj2, hjft, hjterm⟩ := hft
          refine ⟨j, hj2, hjterm, ?_, ?_⟩
          · rw [hmk, dispatchTasks_terminated env temp pres (storeCount dbFile) dbFile
              cc.1 cc.2 j hjft]
          · rw [hmk, dispatchTasks_terminated env temp pres (storeCount dbFile) dbFile
              cc.1 cc.2 j hjft]

/-- Claim C3 witness: with every job terminated, the call on a fresh store
raises and appends nothing. -/
theorem fatal_propagation_check :
    ∃ i, i < 2 ∧ envT.outcome i = TermStatus.terminated ∧
      (make_dpdt envT 300 1 "t" none).result =
        .error (GdiError.terminatedJob (envT.jobRoot i)) ∧
      (make_dpdt envT 300 1 "t" none).dbFile = none :=
  fatal_propagation envT 300 1 "t" none (by decide) ⟨0, by decide, by decide⟩

/-- Claim C6 counterexample: constructing the oracle with the invalid
direction "x" does not fail — it returns a fully-formed oracle that has
already opened an SSH session (a remote resource), and a subsequent oracle
call silently returns `None` instead of raising. -/
theorem init_invalid_dir_succeeds :
    GibbsDuhemFunc.init "gdi_test" "x" 1 =
      { task_path := "gdi_test", inte_dir := "x", pref := 1,
        sshSessionOpened := true, ev2bar := ev2bar } ∧
    ((GibbsDuhemFunc.init "gdi_test" "x" 1).call env0 300 1 none).slope = .ok none := by
  exact ⟨rfl, by decide⟩

/-- Claim C6 (amended): the constructor performs no validation of the
integration direction — it succeeds for every direction string and opens an
SSH session unconditionally; an oracle call with an invalid direction
silently returns `None` with no dispatch and no store change; `make_dpdt`
itself rejects an invalid direction only on a cache miss with an existing
database file. -/
theorem invalid_dir_not_checked_at_setup (d task_path : String) (pref : ℚ)
    (h1 : d ≠ "t") (h2 : d ≠ "p") :
    (GibbsDuhemFunc.init task_path d pref).sshSessionOpened = true ∧
    (∀ (env : SimEnv) (x y : ℚ) (dbFile : Option (List Record)),
      (GibbsDuhemFunc.init task_path d pref).call env x y dbFile =
        { slope := .ok none, dbFile := dbFile, workPath := none,
          tasksCreated := [], jobsSubmitted := 0 }) ∧
    (∀ (env : SimEnv) (temp pres : ℚ) (data : List Record),
      lookupRec temp pres (some data) = none →
      (make_dpdt env temp pres d (some data)).result =
        .error (GdiError.invalidInteDir d)) := by
  refine ⟨rfl, ?_, ?_⟩
  · intro env x y dbFile
    simp [GibbsDuhemFunc.call, GibbsDuhemFunc.init, h1, h2]
  · intro env temp pres data hmiss
    have hw : warmConfs d temp pres (some data) =
        .error (GdiError.invalidInteDir d) := by
      simp [warmConfs, nearestSearch, h1, h2]
    rw [make_dpdt_of_confErr env temp pres d (some data) _ hmiss hw]

/-- Claim C6 witness: the amended statement at direction "x". -/
theorem invalid_dir_not_checked_at_setup_check :
    (GibbsDuhemFunc.init "new_job" "x" 1).sshSessionOpened = true ∧
    (∀ (env : SimEnv) (x y : ℚ) (dbFile : Option (List Record)),
      (GibbsDuhemFunc.init "new_job" "x" 1).call env x y dbFile =
        { slope := .ok none, dbFile := dbFile, workPath := none,
          tasksCreated := [], jobsSubmitted := 0 }) ∧
    (∀ (env : SimEnv) (temp pres : ℚ) (data : List Record),
      lookupRec temp pres (some data) = none →
      (make_dpdt env temp pres "x" (some data)).result =
        .error (GdiError.invalidInteDir "x")) :=
  invalid_dir_not_checked_at_setup "x" "new_job" 1 (by decide) (by decide)

/-- Claim C7 counterexample: a concrete cache-miss evaluation on a fresh
store builds a new task but submits two remote jobs, not one, because the
two phase tasks are chunked with group size 1 into two chunks. -/
theorem two_jobs_not_one :
    (make_dpdt env0 300 1 "t" none).workPath.isSome = true ∧
    (make_dpdt env0 300 1 "t" none).jobsSubmitted = 2 ∧
    (make_dpdt env0 300 1 "t" none).jobsSubmitted ≠ 1 ∧
    chunkList ["0", "1"] 1 ≠ [["0", "1"]] := by
  exact ⟨rfl, rfl, by decide, by decide⟩

/-- Claim C7 (amended): for every cache-miss evaluation the dispatcher is
run over the two phase tasks with group size 1, partitioning them into two
single-task chunks, each under its own remote job handle, so exactly two
remote jobs are submitted per new evaluation point. -/
theorem dispatch_two_single_task_chunks (env : SimEnv) (temp pres : ℚ)
    (inte_dir : String) (dbFile : Option (List Record))
    (hdisp : (make_dpdt env temp pres inte_dir dbFile).workPath.isSome = true) :
    chunkList ["0", "1"] 1 = [["0"], ["1"]] ∧
    (make_dpdt env temp pres inte_dir dbFile).jobsSubmitted = 2 := by
  refine ⟨rfl, ?_⟩
  rcases make_dpdt_step env temp pres inte_dir dbFile with
    ⟨hwp, _, _, _⟩ | ⟨_, _, hj, _, _⟩
  · rw [hwp] at hdisp
    simp at hdisp
  · exact hj

/-- Claim C7 witness: the amended statement at a concrete fresh-store
miss. -/
theorem dispatch_two_single_task_chunks_check :
    chunkList ["0", "1"] 1 = [["0"], ["1"]] ∧
    (make_dpdt env0 300 1 "t" none).jobsSubmitted = 2 :=
  dispatch_two_single_task_chunks env0 300 1 "t" none (by decide)

/-- Claim C4: slope conversion formulas and their reciprocal relation.  For
the same (T, P) with cached differences (dv, dh), the along-temperature
oracle at (x = T, y = P) returns dh / (T * dv) * ev2bar * pref, the
along-pressure oracle at (x = P, y = T) returns
(T * dv) / dh / ev2bar * (1 / pref), and for nonzero dv, dh, T and pref the
two slopes multiply to exactly 1. -/
theorem slope_reciprocal (env : SimEnv) (task_path : String) (pref : ℚ)
    (data : List Record) (r : Record) (T P : ℚ)
    (hlook : lookupRec T P (some data) = some r)
    (hdv : r.dv ≠ 0) (hdh : r.dh ≠ 0) (hT : T ≠ 0) (hpref : pref ≠ 0) :
    ((GibbsDuhemFunc.init task_path "t" pref).call env T P (some data)).slope =
      .ok (some (r.dh / (T * r.dv) * ev2bar * pref)) ∧
    ((GibbsDuhemFunc.init task_path "p" pref).call env P T (some data)).slope =
      .ok (some ((T * r.dv) / r.dh / ev2bar * (1 / pref))) ∧
    ∀ sT sP,
      ((GibbsDuhemFunc.init task_path "t" pref).call env T P (some data)).slope =
        .ok (some sT) →
      ((GibbsDuhemFunc.init task_path "p" pref).call env P T (some data)).slope =
        .ok (some sP) →
      sT * sP = 1 := by
  have hmkt := make_dpdt_of_found env T P "t" (some data) r hlook
  have hmkp := make_dpdt_of_found env T P "p" (some data) r hlook
  have h1 : ((GibbsDuhemFunc.init task_path "t" pref).call env T P (some data)).slope =
      .ok (some (r.dh / (T * r.dv) * ev2bar * pref)) := by
    simp [GibbsDuhemFunc.call, GibbsDuhemFunc.init, hmkt]
  have h2 : ((GibbsDuhemFunc.init task_path "p" pref).call env P T (some data)).slope =
      .ok (some ((T * r.dv) / r.dh / ev2bar * (1 / pref))) := by
    simp [GibbsDuhemFunc.call, GibbsDuhemFunc.init, hmkp]
  refine ⟨h1, h2, ?_⟩
  intro sT sP hsT hsP
  rw [h1] at hsT
  rw [h2] at hsP
  have hsT2 : sT = r.dh / (T * r.dv) * ev2bar * pref := by
    injection hsT with h
    injection h with h
    exact h.symm
  have hsP2 : sP = (T * r.dv) / r.dh / ev2bar * (1 / pref) := by
    injection hsP with h
    injection h with h
    exact h.symm
  subst hsT2
  subst hsP2
  have hev : ev2bar ≠ 0 := by norm_num [ev2bar]
  have hTdv : T * r.dv ≠ 0 := mul_ne_zero hT hdv
  field_simp

/-- Claim C4 witness: a concrete cached record with dv = 2, dh = 3 at
(300, 1). -/
theorem slope_reciprocal_check :
    ((GibbsDuhemFunc.init "new_job" "t" 1).call env0 300 1
        (some [{ temp := 300, pres := 1, dv := 2, dh := 3 }])).slope =
      .ok (some ((3 : ℚ) / (300 * 2) * ev2bar * 1)) ∧
    ((GibbsDuhemFunc.init "new_job" "p" 1).call env0 1 300
        (some [{ temp := 300, pres := 1, dv := 2, dh := 3 }])).slope =
      .ok (some (((300 : ℚ) * 2) / 3 / ev2bar * (1 / 1))) ∧
    ∀ sT sP,
      ((GibbsDuhemFunc.init "new_job" "t" 1).call env0 300 1
          (some [{ temp := 300, pres := 1, dv := 2, dh := 3 }])).slope =
        .ok (some sT) →
      ((GibbsDuhemFunc.init "new_job" "p" 1).call env0 1 300
          (some [{ temp := 300, pres := 1, dv := 2, dh := 3 }])).slope =
        .ok (some sP) →
      sT * sP = 1 :=
  slope_reciprocal env0 "new_job" 1 [{ temp := 300, pres := 1, dv := 2, dh := 3 }]
    { temp := 300, pres := 1, dv := 2, dh := 3 } 300 1
    (by decide) (by decide) (by decide) (by decide) (by decide)

/-- Claim C5: nearest-neighbor warm-start correctness.  On a cache miss
with a non-empty store, the warm-start configurations come from the task
directory of a record index minimizing the distance along the integration
direction (temperature distance for direction "t", pressure distance for
direction "p"); concretely, with records at temperatures 300, 350, 400 and
direction "t", a query at 340 selects the record at 350 (index 1). -/
theorem warm_start_nearest (env : SimEnv) (temp pres : ℚ) (inte_dir : String)
    (data : List Record)
    (hmiss : lookupRec temp pres (some data) = none)
    (hdir : inte_dir = "t" ∨ inte_dir = "p")
    (hbound : ∃ r ∈ data, distAlong inte_dir temp pres r < minValInit) :
    (∃ i, ∃ hi : i < data.length,
      (∀ r ∈ data, distAlong inte_dir temp pres (data.get ⟨i, hi⟩) ≤
        distAlong inte_dir temp pres r) ∧
      (make_dpdt env temp pres inte_dir (some data)).conf0 =
        "database/" ++ taskName i ++ "/0/out.lmp" ∧
      (make_dpdt env temp pres inte_dir (some data)).conf1 =
        "database/" ++ taskName i ++ "/1/out.lmp") ∧
    (make_dpdt env0 340 1 "t" (some db340)).conf0 =
      "database/" ++ taskName 1 ++ "/0/out.lmp" := by
  refine ⟨?_, by decide⟩
  obtain ⟨r0, hr0, hb0⟩ := hbound
  have hne : data ≠ [] := by
    rintro rfl
    simp at hr0
  obtain ⟨i, hi, hmin, hfirst⟩ :=
    exists_first_min_rec (distAlong inte_dir temp pres) data hne
  obtain ⟨⟨j0, hj0⟩, rfl⟩ := List.mem_iff_get.mp hr0
  have hbig : distAlong inte_dir temp pres (data.get ⟨i, hi⟩) < minValInit :=
    lt_of_le_of_lt (hmin j0 hj0) hb0
  have hns := nearestSearch_first inte_dir temp pres data hdir i hi hmin hfirst hbig
  have hw : warmConfs inte_dir temp pres (some data) =
      .ok ("database/" ++ taskName i ++ "/0/out.lmp",
           "database/" ++ taskName i ++ "/1/out.lmp") := by
    simp [warmConfs, hns]
  have hmk := make_dpdt_of_confOk env temp pres inte_dir (some data) _ _ hmiss hw
  refine ⟨i, hi, ?_, ?_, ?_⟩
  · intro r hr
    obtain ⟨⟨j, hj⟩, rfl⟩ := List.mem_iff_get.mp hr
    exact hmin j hj
  · rw [hmk]
    cases hf : firstTerminated env 2 with
    | some t =>
        rw [dispatchTasks_terminated env temp pres (storeCount (some data))
          (some data) _ _ t hf]
    | none =>
        rw [dispatchTasks_finished env temp pres (storeCount (some data))
          (some data) _ _ hf]
  · rw [hmk]
    cases hf : firstTerminated env 2 with
    | some t =>
        rw [dispatchTasks_terminated env temp pres (storeCount (some data))
          (some data) _ _ t hf]
    | none =>
        rw [dispatchTasks_finished env temp pres (storeCount (some data))
          (some data) _ _ hf]

/-- Claim C5 witness: the scenario of the claim — records at temperatures
300, 350, 400, direction "t", query at 340. -/
theorem warm_start_nearest_check :
    (∃ i, ∃ hi : i < db340.length,
      (∀ r ∈ db340, distAlong "t" 340 1 (db340.get ⟨i, hi⟩) ≤
        distAlong "t" 340 1 r) ∧
      (make_dpdt env0 340 1 "t" (some db340)).conf0 =
        "database/" ++ taskName i ++ "/0/out.lmp" ∧
      (make_dpdt env0 340 1 "t" (some db340)).conf1 =
        "database/" ++ taskName i ++ "/1/out.lmp") ∧
    (make_dpdt env0 340 1 "t" (some db340)).conf0 =
      "database/" ++ taskName 1 ++ "/0/out.lmp" :=
  warm_start_nearest env0 340 1 "t" db340 (by decide) (Or.inl rfl)
    ⟨{ temp := 350, pres := 1, dv := 1, dh := 1 }, by decide, by decide⟩

/-- Claim C10: deterministic tie-break in the nearest-record scan.  The
scan replaces its current minimum only on a strictly smaller distance, so
the selected index is the first index attaining the minimal distance: if
index i attains the minimum and every earlier index is strictly farther,
the search returns exactly index i (in particular, among several records at
the same minimal distance the smallest index wins). -/
theorem nearest_tie_break (inte_dir : String) (temp pres : ℚ) (data : List Record)
    (hdir : inte_dir = "t" ∨ inte_dir = "p") (i : ℕ) (hi : i < data.length)
    (hmin : ∀ j (hj : j < data.length),
      distAlong inte_dir temp pres (data.get ⟨i, hi⟩) ≤
        distAlong inte_dir temp pres (data.get ⟨j, hj⟩))
    (hfirst : ∀ j (hj : j < data.length), j < i →
      distAlong inte_dir temp pres (data.get ⟨i, hi⟩) <
        distAlong inte_dir temp pres (data.get ⟨j, hj⟩))
    (hbig : distAlong inte_dir temp pres (data.get ⟨i, hi⟩) < minValInit) :
    nearestSearch inte_dir temp pres data =
      .ok ((i : Int), distAlong inte_dir temp pres (data.get ⟨i, hi⟩)) :=
  nearestSearch_first inte_dir temp pres data hdir i hi hmin hfirst hbig

/-- Claim C10 witness: two records tied at distance 10 from the query; the
earlier one (index 0) is selected. -/
theorem nearest_tie_break_check :
    nearestSearch "t" 340 1
      [{ temp := 330, pres := 1, dv := 1, dh := 1 },
       { temp := 350, pres := 1, dv := 1, dh := 1 }] = .ok (0, 10) := by
  have h := nearest_tie_break "t" 340 1
    [{ temp := 330, pres := 1, dv := 1, dh := 1 },
     { temp := 350, pres := 1, dv := 1, dh := 1 }]
    (Or.inl rfl) 0 (by decide) (by decide) (by decide) (by decide)
  simpa using h

/-- A canonical oracle along the temperature direction, used by concrete
run witnesses. -/
def g0 : GibbsDuhemFunc := GibbsDuhemFunc.init "new_job" "t" 1

/-- Two evaluation points that both miss a fresh store. -/
def pts0 : List (ℚ × ℚ) := [(300, 1), (350, 1)]

/-- Claim C8: monotonic task identifiers.  A dispatching call builds its
task directories under `database/task.NNNNNN` where N is the store record
count before the append — 0 when the database file is absent and the number
of reconstructed records otherwise — and over a whole non-aborted run from
an empty store the created directories are exactly the zero-padded indices
0, 1, ..., in order, so the k-th new evaluation uses index k - 1. -/
theorem monotonic_task_identifiers (env : SimEnv) (temp pres : ℚ)
    (inte_dir : String) (dbFile : Option (List Record)) (g : GibbsDuhemFunc)
    (pts : List (ℚ × ℚ))
    (hrun : (runCalls g env pts ⟨none, 0, [], false⟩).aborted = false) :
    ((make_dpdt env temp pres inte_dir dbFile).workPath.isSome = true →
      (make_dpdt env temp pres inte_dir dbFile).workPath =
        some ("database/" ++ taskName (storeCount dbFile)) ∧
      (make_dpdt env temp pres inte_dir dbFile).tasksCreated =
        ["database/" ++ taskName (storeCount dbFile) ++ "/0",
         "database/" ++ taskName (storeCount dbFile) ++ "/1"]) ∧
    storeCount none = 0 ∧
    (∀ data : List Record, storeCount (some data) = data.length) ∧
    (runCalls g env pts ⟨none, 0, [], false⟩).taskDirs =
      (List.range (runCalls g env pts ⟨none, 0, [], false⟩).nNew).map
        (fun k => "database/" ++ taskName k) := by
  refine ⟨?_, rfl, fun data => rfl, ?_⟩
  · intro hsome
    rcases make_dpdt_step env temp pres inte_dir dbFile with
      ⟨hwp, _, _, _⟩ | ⟨hwp, htasks, _, _, _⟩
    · rw [hwp] at hsome
      simp at hsome
    · rw [storeCount_eq]
      exact ⟨hwp, htasks⟩
  · obtain ⟨k, hn, hl, hd, hp⟩ := runCalls_inv g env pts ⟨none, 0, [], false⟩ rfl
    have hdirs := hd hrun
    simp only [recsOf_none, List.length_nil] at hdirs
    simp only at hn hdirs
    rw [hdirs, hn, List.range_eq_range']
    simp

/-- Claim C8 witness: a fresh two-point run creates directories
`database/task.000000` and `database/task.000001` in order. -/
theorem monotonic_task_identifiers_check :
    (runCalls g0 env0 pts0 ⟨none, 0, [], false⟩).taskDirs =
      (List.range (runCalls g0 env0 pts0 ⟨none, 0, [], false⟩).nNew).map
        (fun k => "database/" ++ taskName k) :=
  (monotonic_task_identifiers env0 300 1 "t" none g0 pts0 (by decide)).2.2.2

/-- Claim C9: store uniqueness invariant.  After any run whose store starts
pairwise tolerance-distinct (in particular a fresh run), the persisted
store is pairwise tolerance-distinct — every pair of records differs by at
least 1e-4 in temperature or at least 1e-2 in pressure — and its record
count equals the initial count plus the number of successful new
(cache-miss) evaluations: a fresh run of N successful cache-miss
evaluations leaves exactly N records. -/
theorem store_uniqueness (g : GibbsDuhemFunc) (env : SimEnv)
    (pts : List (ℚ × ℚ)) (db0 : Option (List Record))
    (h0 : List.Pairwise distinctP (recsOf db0)) :
    List.Pairwise distinctP (recsOf (runCalls g env pts ⟨db0, 0, [], false⟩).dbFile) ∧
    (recsOf (runCalls g env pts ⟨db0, 0, [], false⟩).dbFile).length =
      (recsOf db0).length + (runCalls g env pts ⟨db0, 0, [], false⟩).nNew := by
  obtain ⟨k, hn, hl, hd, hp⟩ := runCalls_inv g env pts ⟨db0, 0, [], false⟩ rfl
  simp only at hn hl hp
  refine ⟨hp h0, ?_⟩
  rw [hl, hn]
  omega

/-- Claim C9 witness: a fresh two-point run yields two pairwise-distinct
records, one per successful cache-miss evaluation. -/
theorem store_uniqueness_check :
    List.Pairwise distinctP (recsOf (runCalls g0 env0 pts0 ⟨none, 0, [], false⟩).dbFile) ∧
    (recsOf (runCalls g0 env0 pts0 ⟨none, 0, [], false⟩).dbFile).length =
      (recsOf none).length + (runCalls g0 env0 pts0 ⟨none, 0, [], false⟩).nNew :=
  store_uniqueness g0 env0 pts0 none (by simp)

end Gdi
